import Mathlib

/-
Verification of the shillelagh GSheets adapter (adapters/api/gsheets.py) and
the multicorn foreign data wrapper (backends/multicorn/fdw.py).

Python strings are modelled as Lean String (or List Char for raw HTTP bodies),
Python dict iteration as association lists in insertion order, and fallible
Python code (raised exceptions) as Except / Option values.
-/

namespace Shillelagh

/-- The single quote character, as a one-character string. -/
def squote : String := String.singleton (Char.ofNat 39)

/-- A scalar value that can appear in a filter bound or a response cell.
Covers the Python types exercised by the adapter: int, str, bool and None.
Python bool is a subtype of int, which matters for quoting. -/
inductive Value where
  | int (n : Int)
  | str (s : String)
  | bool (b : Bool)
  | none_
deriving DecidableEq

/-- Python truthiness of a value: 0, the empty string, False and None are
falsy, everything else is truthy. Mirrors how the source tests a value with
a bare if statement. -/
def Value.truthy : Value → Bool
  | .int n => n ≠ 0
  | .str s => s ≠ ""
  | .bool b => b
  | .none_ => false

/-- Python str(value), used when interpolating a value into a message. -/
def Value.display : Value → String
  | .int n => toString n
  | .str s => s
  | .bool b => if b then "True" else "False"
  | .none_ => "None"

/-- Errors raised by the adapter code. -/
inductive AdapterError where
  | quoteError (msg : String)
  | keyError (name : String)
  | remoteQueryError (body : List Char)
  | jsonDecodeError
deriving DecidableEq

/-- gsheets.py, quote (lines 113-120). An isinstance check against
(int, float) also accepts Python booleans, since bool is an int subtype, so
True renders as the bare text True; strings have each single quote doubled
and are wrapped in single quotes; anything else raises. The original raises
a plain Exception; the error message is modelled verbatim. -/
def quote : Value → Except AdapterError String
  | .int n => .ok (toString n)
  | .bool b => .ok (if b then "True" else "False")
  | .str s =>
      let quoted_value : String := ⟨s.data.flatMap fun c =>
        if c = Char.ofNat 39 then [Char.ofNat 39, Char.ofNat 39] else [c]⟩
      .ok (squote ++ quoted_value ++ squote)
  | v => .error (.quoteError ("Can" ++ squote ++ "t quote value: " ++ v.display))

/-- A per-column filter bound. Modelled from the spec: the Bound variants
Impossible, Equal(value) and Range(start, include_start, end, include_end)
of section 3, with both range ends optional; the class definitions live in
shillelagh.filters, outside the two source files. -/
inductive Filter where
  | impossible
  | equal (value : Value)
  | range (start : Option Value) (end_ : Option Value)
      (include_start : Bool) (include_end : Bool)
deriving DecidableEq

/-- First-match association-list lookup, modelling a Python dict read. -/
def alookup {α : Type} (m : List (String × α)) (k : String) : Option α :=
  match m with
  | [] => none
  | (k₁, v₁) :: rest => if k₁ = k then some v₁ else alookup rest k

/-- gsheets.py, GSheetsAPI.get_data, lines 230-243: the loop that builds the
list of WHERE conditions from the bounds mapping. The column map is the
label-to-remote-id dict; bounds iterate in insertion order. A missing label
raises KeyError; a range endpoint is emitted only when it is truthy, because
the source tests it with a bare if statement. -/
def getConditions (cm : List (String × String)) :
    List (String × Filter) → Except AdapterError (List String)
  | [] => .ok []
  | (column_name, filter_) :: rest => do
      let id_ ← match alookup cm column_name with
        | some i => Except.ok i
        | none => Except.error (.keyError column_name)
      let these ← match filter_ with
        | .impossible => Except.ok ["1 = 0"]
        | .equal v => do
            let q ← quote v
            Except.ok [id_ ++ " = " ++ q]
        | .range s e is ie => do
            let lower ← match s with
              | some v =>
                  if v.truthy then do
                    let q ← quote v
                    Except.ok [id_ ++ " " ++ (if is then ">=" else ">") ++ " " ++ q]
                  else Except.ok []
              | none => Except.ok []
            let upper ← match e with
              | some v =>
                  if v.truthy then do
                    let q ← quote v
                    Except.ok [id_ ++ " " ++ (if ie then "<=" else "<") ++ " " ++ q]
                  else Except.ok []
              | none => Except.ok []
            Except.ok (lower ++ upper)
      let more ← getConditions cm rest
      Except.ok (these ++ more)

/-- gsheets.py, GSheetsAPI.get_data, lines 228-245: the SQL string sent to
the remote service, SELECT * plus an optional WHERE clause whose conditions
are joined with AND. -/
def buildSQL (cm : List (String × String)) (bounds : List (String × Filter)) :
    Except AdapterError String := do
  let conditions ← getConditions cm bounds
  if conditions.isEmpty then
    Except.ok "SELECT *"
  else
    Except.ok ("SELECT * WHERE " ++ String.intercalate " AND " conditions)

/-- Spec-side description of one side of a range condition: the remote id,
the comparison operator chosen by the inclusion flag, and the quoted
endpoint; the side is omitted when the endpoint is absent or falsy. -/
def sideSpec (id_ op : String) : Option Value → Except AdapterError (List String)
  | none => .ok []
  | some v =>
      if v.truthy then (quote v).map fun q => [id_ ++ " " ++ op ++ " " ++ q]
      else .ok []

/-- Spec-side description of the conditions one bound contributes: Impossible
gives the literal 1 = 0, Equal gives remote id = quoted value, Range gives a
lower side using >= or > by include_start and an upper side using <= or < by
include_end. -/
def condSpec (id_ : String) : Filter → Except AdapterError (List String)
  | .impossible => .ok ["1 = 0"]
  | .equal v => (quote v).map fun q => [id_ ++ " = " ++ q]
  | .range s e is ie => do
      let lower ← sideSpec id_ (if is then ">=" else ">") s
      let upper ← sideSpec id_ (if ie then "<=" else "<") e
      Except.ok (lower ++ upper)

/-- Spec-side description of the whole condition list: each bound is resolved
through the column map and contributes its conditions in order. -/
def condsSpec (cm : List (String × String)) :
    List (String × Filter) → Except AdapterError (List String)
  | [] => .ok []
  | (name, f) :: rest => do
      let id_ ← match alookup cm name with
        | some i => Except.ok i
        | none => Except.error (.keyError name)
      let these ← condSpec id_ f
      let more ← condsSpec cm rest
      Except.ok (these ++ more)

/-- gsheets.py line 36: JSON_PAYLOAD_PREFIX, the guard text the remote
service may prepend to a JSON body. Its characters are right paren, right
bracket, right brace, single quote, newline. -/
def jsonPayloadGuard : List Char :=
  [Char.ofNat 41, Char.ofNat 93, Char.ofNat 125, Char.ofNat 39, Char.ofNat 10]

/-- The observable parts of the HTTP response used by _run_query: the status
code and the body text (a Python str, modelled as a list of characters). -/
structure HttpResponse where
  status_code : Nat
  text : List Char
deriving DecidableEq

/-- gsheets.py, GSheetsAPI._run_query, lines 204-212: the status check and
body parsing. json.loads is external library code and is passed in as the
jsonDecode argument (returning none where json.loads would raise); the rest
follows the source. A non-200 status raises ProgrammingError carrying
response.text, which the spec calls RemoteQueryError. -/
def run_query {α : Type} (jsonDecode : List Char → Option α)
    (response : HttpResponse) : Except AdapterError α :=
  if response.status_code ≠ 200 then
    .error (.remoteQueryError response.text)
  else if jsonPayloadGuard.isPrefixOf response.text then
    match jsonDecode (response.text.drop jsonPayloadGuard.length) with
    | some result => .ok result
    | none => .error .jsonDecodeError
  else
    match jsonDecode response.text with
    | some result => .ok result
    | none => .error .jsonDecodeError

/-- One column descriptor of a decoded query result (gsheets.py lines
45-49); only the fields the adapter reads are kept. -/
structure QueryResultsColumn where
  id : String
  label : String
deriving DecidableEq

/-- One cell of a decoded query result (gsheets.py lines 52-54); the
adapter only reads the field v. -/
structure QueryResultsCell where
  v : Value
deriving DecidableEq

/-- One row of a decoded query result (gsheets.py lines 57-58). -/
structure QueryResultsRow where
  c : List QueryResultsCell
deriving DecidableEq

/-- The table part of a decoded query result (gsheets.py lines 61-64). -/
structure QueryResultsTable where
  cols : List QueryResultsColumn
  rows : List QueryResultsRow
deriving DecidableEq

/-- A yielded row: a Python dict from column label to value, modelled as an
association list in insertion order with unique keys. -/
abbrev Row : Type := List (String × Value)

/-- Python dict assignment d[k] = v: replace the value at the first
occurrence of k, keeping its position, or append the pair if k is absent. -/
def dictInsert (d : List (String × Value)) (k : String) (v : Value) :
    List (String × Value) :=
  match d with
  | [] => [(k, v)]
  | (k₁, v₁) :: rest =>
      if k₁ = k then (k₁, v) :: rest else (k₁, v₁) :: dictInsert rest k v

/-- Python dict(pairs): insert the pairs left to right. -/
def dictOf (pairs : List (String × Value)) : List (String × Value) :=
  pairs.foldl (fun d p => dictInsert d p.1 p.2) []

/-- gsheets.py, GSheetsAPI.get_data, lines 248-255: zip the cell values of
each response row against the column labels positionally, build a dict, then
set rowid to the 0-based position of the row in the result set. -/
def get_data_rows (table : QueryResultsTable) : List Row :=
  let column_names := table.cols.map fun col => col.label
  table.rows.enum.map fun p =>
    dictInsert (dictOf (column_names.zip (p.2.c.map fun cell => cell.v)))
      "rowid" (Value.int p.1)

/-- gsheets.py, GSheetsAPI.get_data, end to end: build the SQL from the
bounds, run the query against the supplied response, and materialize the
yielded rows. When any step raises, the generator produces no rows. -/
def get_data (cm : List (String × String)) (bounds : List (String × Filter))
    (jsonDecode : List Char → Option QueryResultsTable)
    (response : HttpResponse) : Except AdapterError (List Row) := do
  let _sql ← buildSQL cm bounds
  let table ← run_query jsonDecode response
  Except.ok (get_data_rows table)

/-- The predicate operators of shillelagh.filters used by the FDW.
Modelled from the spec: the supported operator set of section 6. -/
inductive Operator where
  | eq
  | gt
  | lt
  | ge
  | le
deriving DecidableEq

/-- fdw.py lines 26-32: operator_map, the partial map from host operator
strings to Operator values; a Python dict .get, so unknown strings map to
none. -/
def operator_map : String → Option Operator
  | "=" => some .eq
  | ">" => some .gt
  | "<" => some .lt
  | ">=" => some .ge
  | "<=" => some .le
  | _ => none

/-- A host predicate qualifier (multicorn Qual): field name, operator
string, comparison value. -/
structure Qual where
  field_name : String
  operator : String
  value : Value
deriving DecidableEq

/-- Add a pair to the set held for a field in the defaultdict-of-sets,
creating the entry on first access and ignoring an exact duplicate (Python
set.add). -/
def boundsAdd (m : List (String × List (Operator × Value))) (f : String)
    (p : Operator × Value) : List (String × List (Operator × Value)) :=
  match m with
  | [] => [(f, [p])]
  | (f₁, s₁) :: rest =>
      if f₁ = f then (f₁, if p ∈ s₁ then s₁ else s₁ ++ [p]) :: rest
      else (f₁, s₁) :: boundsAdd rest f p

/-- Reading the defaultdict: an absent field has the empty set. -/
def boundsGet : List (String × List (Operator × Value)) → String →
    List (Operator × Value)
  | [], _ => []
  | (f₁, s₁) :: rest, f => if f₁ = f then s₁ else boundsGet rest f

/-- fdw.py, get_all_bounds, lines 35-44: walk the qualifiers in order; a
qualifier whose operator string is in operator_map adds the pair to its
field's set, any other qualifier is skipped. -/
def get_all_bounds (quals : List Qual) :
    List (String × List (Operator × Value)) :=
  quals.foldl
    (fun all_bounds qual =>
      match operator_map qual.operator with
      | some op => boundsAdd all_bounds qual.field_name (op, qual.value)
      | none => all_bounds)
    []

/-- The sort capability of a column. Modelled from the spec: the
sort_capability enum NONE, ASCENDING, DESCENDING, ANY of section 3; the
enum itself lives in shillelagh.fields, outside the two source files. -/
inductive Order where
  | none_
  | ascending
  | descending
  | any
deriving DecidableEq

/-- The part of a column Field read by can_sort: its declared order. -/
structure FieldDef where
  order : Order
deriving DecidableEq

/-- A host sort key (multicorn SortKey): column name and direction flag. -/
structure SortKey where
  attname : String
  is_reversed : Bool
deriving DecidableEq

/-- fdw.py, MulticornForeignDataWrapper.can_sort, lines 93-112: keep the
sort keys whose column exists and whose declared order is ANY, or ASCENDING
with a non-reversed key, or DESCENDING with a reversed key. The columns
argument is the dict cached from adapter.get_columns(). -/
def can_sort (columns : List (String × FieldDef)) (sortkeys : List SortKey) :
    List SortKey :=
  sortkeys.filter fun key =>
    match alookup columns key.attname with
    | none => false
    | some field =>
        field.order = Order.any
          ∨ (field.order = Order.ascending ∧ ¬key.is_reversed)
          ∨ (field.order = Order.descending ∧ key.is_reversed)

/-- The result of urllib.parse.urlparse on the source locator, with the
query string already split into its ordered key-value pairs (parse_qs keeps
them grouped by key; the pair order here is their order in the query
string). -/
structure UrlParts where
  scheme : String
  netloc : String
  path : String
  query : List (String × String)
  fragment : String
deriving DecidableEq

/-- Python s.startswith(pre), modelled on the character lists. -/
def str_startsWith (s pre : String) : Bool := pre.data.isPrefixOf s.data

/-- Python s.endswith(suf), modelled on the character lists. -/
def str_endsWith (s suf : String) : Bool := suf.data.isSuffixOf s.data

/-- Python s[n:], modelled on the character lists. -/
def str_drop (s : String) (n : Nat) : String := ⟨s.data.drop n⟩

/-- Python s[:-n], modelled on the character lists. -/
def str_dropRight (s : String) (n : Nat) : String :=
  ⟨s.data.take (s.data.length - n)⟩

/-- The numeric value of a nonempty all-digit character list. -/
def digitsToNat (ds : List Char) : Option Nat :=
  if ds ≠ [] ∧ ds.all fun c => 48 ≤ c.toNat ∧ c.toNat ≤ 57 then
    some (ds.foldl (fun n c => 10 * n + (c.toNat - 48)) 0)
  else none

/-- Python int(s) for the plain forms the adapter meets: an optional minus
sign followed by digits; anything else raises, modelled as none. -/
def str_toInt (s : String) : Option Int :=
  match s.data with
  | [] => none
  | c :: rest =>
      if c = Char.ofNat 45 then (digitsToNat rest).map fun n => -(n : Int)
      else (digitsToNat (c :: rest)).map fun n => (n : Int)

/-- parse_qs(query)[k][-1]: the last non-blank value for key k, none when
the key is absent (parse_qs drops blank values by default). -/
def lastQS (query : List (String × String)) (k : String) : Option String :=
  ((query.filter fun p => p.1 = k ∧ p.2 ≠ "").map fun p => p.2).getLast?

/-- Python s.rstrip applied with the slash character. -/
def rstrip_slash (s : String) : String :=
  ⟨(s.data.reverse.dropWhile fun c => c = Char.ofNat 47).reverse⟩

/-- gsheets.py, get_url, lines 130-136: strip a trailing /edit from the
path, then join the right-stripped path with the gviz/tq service segment. -/
def api_path (p : String) : String :=
  let path := if str_endsWith p "/edit" then str_dropRight p 5 else p
  rstrip_slash path ++ "/gviz/tq"

/-- gsheets.py, get_url, lines 139-140: a headers query-string parameter
overrides the argument; int() failure raises, modelled as none. -/
def resolve_headers (parts : UrlParts) (headers : Int) : Option Int :=
  match lastQS parts.query "headers" with
  | some s => str_toInt s
  | none => some headers

/-- gsheets.py, get_url, lines 143-144: a sheet query-string parameter
overrides the argument. -/
def resolve_sheet (parts : UrlParts) (sheet : Option String) : Option String :=
  match lastQS parts.query "sheet" with
  | some s => some s
  | none => sheet

/-- gsheets.py, get_url, lines 141-147: a gid query-string parameter
overrides the argument, then a fragment of the form gid=N overrides both;
int() failure raises, modelled as none. -/
def resolve_gid (parts : UrlParts) (gid : Int) : Option Int := do
  let gid₁ ← match lastQS parts.query "gid" with
    | some s => str_toInt s
    | none => some gid
  if str_startsWith parts.fragment "gid=" then
    str_toInt (str_drop parts.fragment 4)
  else
    some gid₁

/-- One hexadecimal digit character, uppercase. -/
def hexDigit (n : Nat) : Char :=
  if n < 10 then Char.ofNat (48 + n) else Char.ofNat (55 + n)

/-- The UTF-8 encoding of one character, as byte values. -/
def utf8Bytes (c : Char) : List Nat :=
  let n := c.toNat
  if n < 128 then [n]
  else if n < 2048 then [192 + n / 64, 128 + n % 64]
  else if n < 65536 then [224 + n / 4096, 128 + (n / 64) % 64, 128 + n % 64]
  else [240 + n / 262144, 128 + (n / 4096) % 64, 128 + (n / 64) % 64, 128 + n % 64]

/-- urllib.parse.quote_plus: keep ASCII letters, digits and the characters
underscore, dot, hyphen, tilde; a space becomes a plus; every other UTF-8
byte becomes a percent escape. -/
def quote_plus (s : String) : String :=
  ⟨(s.data.flatMap utf8Bytes).flatMap fun b =>
    if (48 ≤ b ∧ b ≤ 57) ∨ (65 ≤ b ∧ b ≤ 90) ∨ (97 ≤ b ∧ b ≤ 122)
        ∨ b = 95 ∨ b = 46 ∨ b = 45 ∨ b = 126 then
      [Char.ofNat b]
    else if b = 32 then
      [Char.ofNat 43]
    else
      [Char.ofNat 37, hexDigit (b / 16), hexDigit (b % 16)]⟩

/-- urllib.parse.urlencode on the args dict, iterated in insertion order. -/
def urlencode (args : List (String × String)) : String :=
  String.intercalate "&" (args.map fun p => quote_plus p.1 ++ "=" ++ quote_plus p.2)

/-- urllib.parse.urlunparse on (scheme, netloc, path, None, params, None)
for the non-degenerate shapes the adapter produces. -/
def urlunparse (scheme netloc path query : String) : String :=
  (if scheme ≠ "" then scheme ++ ":" else "")
    ++ (if netloc ≠ "" then "//" ++ netloc else "")
    ++ path
    ++ (if query ≠ "" then "?" ++ query else "")

/-- gsheets.py, get_url, lines 123-160, over already-parsed URL parts: build
the API URL. The headers, gid and sheet arguments carry the Python defaults
0, 0 and None at the call site in the source. -/
def get_url (parts : UrlParts) (headers : Int) (gid : Int)
    (sheet : Option String) : Option String := do
  let path := api_path parts.path
  let headers ← resolve_headers parts headers
  let sheet := resolve_sheet parts sheet
  let gid ← resolve_gid parts gid
  let args :=
    (if headers > 0 then [("headers", toString headers)] else [])
      ++ (match sheet with
          | some s => [("sheet", s)]
          | none => [("gid", toString gid)])
  some (urlunparse parts.scheme parts.netloc path (urlencode args))

/-- The spec-side escaping of a string value: every single quote doubled. -/
def doubledQuotes (s : String) : String :=
  ⟨s.data.flatMap fun c =>
    if c = Char.ofNat 39 then [Char.ofNat 39, Char.ofNat 39] else [c]⟩

@[simp]
theorem except_ok_bind {α β ε : Type} (a : α) (f : α → Except ε β) :
    (Except.ok a >>= f) = f a := rfl

@[simp]
theorem except_error_bind {α β ε : Type} (e : ε) (f : α → Except ε β) :
    ((Except.error e : Except ε α) >>= f) = Except.error e := rfl

@[simp]
theorem except_map_ok {α β ε : Type} (a : α) (f : α → β) :
    Except.map f (Except.ok a : Except ε α) = Except.ok (f a) := rfl

@[simp]
theorem except_map_error {α β ε : Type} (e : ε) (f : α → β) :
    Except.map f (Except.error e : Except ε α) = Except.error e := rfl

theorem getConditions_eq_condsSpec (cm : List (String × String))
    (bounds : List (String × Filter)) :
    getConditions cm bounds = condsSpec cm bounds := by
  induction bounds with
  | nil => rfl
  | cons p rest ih =>
      obtain ⟨name, f⟩ := p
      simp only [getConditions, condsSpec, ih]
      cases alookup cm name with
      | none => rfl
      | some id_ =>
          cases f with
          | impossible => rfl
          | equal v =>
              simp only [condSpec]
              cases quote v <;> rfl
          | range s e is ie =>
              simp only [condSpec]
              cases s with
              | none =>
                  cases e with
                  | none => rfl
                  | some v =>
                      simp only [sideSpec]
                      cases hv : v.truthy <;> cases hq : quote v <;> simp [hv, hq]
              | some v =>
                  simp only [sideSpec]
                  cases e with
                  | none =>
                      cases hv : v.truthy <;> cases hq : quote v <;> simp [hv, hq]
                  | some w =>
                      cases hv : v.truthy <;> cases hw : w.truthy <;>
                        cases hqv : quote v <;> cases hqw : quote w <;>
                          simp [hv, hw, hqv, hqw]

/-- C2 counterexample: quoting the boolean True succeeds with the bare text
True instead of failing, because the isinstance check against int also
accepts Python booleans; a boolean is neither a numeric nor a string value,
so the claim as stated requires an error here. -/
theorem quote_bool_counterexample : quote (Value.bool true) = Except.ok "True" := rfl

/-- C2 (amended): numeric values render as bare literals; booleans also take
the numeric branch, rendering as the bare text True or False, because bool
is an int subtype in Python; strings have every single quote doubled and are
wrapped in single quotes, so quoting OBrien with an internal quote yields it
quoted and doubled; a value of any remaining type (such as None) fails. -/
theorem quote_spec (n : Int) (s : String) (b : Bool) :
    quote (Value.int n) = Except.ok (toString n)
    ∧ quote (Value.str s) = Except.ok (squote ++ doubledQuotes s ++ squote)
    ∧ quote (Value.bool b) = Except.ok (if b then "True" else "False")
    ∧ quote (Value.str ("O" ++ squote ++ "Brien"))
        = Except.ok (squote ++ "O" ++ squote ++ squote ++ "Brien" ++ squote)
    ∧ quote Value.none_
        = Except.error (.quoteError ("Can" ++ squote ++ "t quote value: None")) := by
  refine ⟨rfl, rfl, rfl, rfl, rfl⟩

/-- C1 counterexample: a Range bound whose start endpoint is present but
equal to the number 0 contributes no condition at all, because the source
tests the endpoint with a bare if statement and 0 is falsy in Python; the
claim as stated requires the lower condition A >= 0 here. -/
theorem where_clause_zero_counterexample :
    buildSQL [("c", "A")] [("c", Filter.range (some (Value.int 0)) none true true)]
        = Except.ok "SELECT *"
    ∧ (Except.ok "SELECT *" : Except AdapterError String)
        ≠ Except.ok "SELECT * WHERE A >= 0" := by
  refine ⟨rfl, fun h => absurd (Except.ok.inj h) (by decide)⟩

/-- C1 (amended): the WHERE clause built by get_data contains, per bound,
the literal 1 = 0 for Impossible, remote id = quoted value for Equal, and
for Range a lower condition with >= or > by include_start and an upper
condition with <= or < by include_end, a side being omitted exactly when its
endpoint is absent or falsy (the number 0 or the empty string); the
conditions are joined with AND and no WHERE clause is emitted when there are
none. The last conjunct checks the end-to-end example of the spec. -/
theorem where_clause_spec (cm : List (String × String))
    (bounds : List (String × Filter)) :
    buildSQL cm bounds
        = (condsSpec cm bounds).map (fun conditions =>
            if conditions = [] then "SELECT *"
            else "SELECT * WHERE " ++ String.intercalate " AND " conditions)
    ∧ buildSQL [("col", "A")]
          [("col", Filter.range (some (Value.int 10)) none true false)]
        = Except.ok "SELECT * WHERE A >= 10" := by
  constructor
  · show (do
        let conditions ← getConditions cm bounds
        if conditions.isEmpty then Except.ok "SELECT *"
        else Except.ok ("SELECT * WHERE " ++ String.intercalate " AND " conditions)) = _
    rw [getConditions_eq_condsSpec]
    cases condsSpec cm bounds with
    | error e => rfl
    | ok conditions =>
        simp only [except_ok_bind, except_map_ok, List.isEmpty_iff]
        split <;> simp_all
  · rfl

/-- C5: a 200 response whose body starts with the guard text is decoded with
exactly the guard length stripped, and yields the same result as a 200
response carrying the bare payload, for every decoder and every payload that
does not itself start with the guard. -/
theorem run_query_guard_equiv {α : Type} (jsonDecode : List Char → Option α)
    (payload : List Char)
    (h : jsonPayloadGuard.isPrefixOf payload = false) :
    run_query jsonDecode ⟨200, jsonPayloadGuard ++ payload⟩
        = run_query jsonDecode ⟨200, payload⟩
    ∧ run_query jsonDecode ⟨200, jsonPayloadGuard ++ payload⟩
        = (match jsonDecode payload with
           | some result => Except.ok result
           | none => Except.error AdapterError.jsonDecodeError) := by
  have hpre : jsonPayloadGuard.isPrefixOf (jsonPayloadGuard ++ payload) = true := by
    rw [List.isPrefixOf_iff_prefix]
    exact List.prefix_append jsonPayloadGuard payload
  have hdrop : (jsonPayloadGuard ++ payload).drop jsonPayloadGuard.length = payload :=
    List.drop_left jsonPayloadGuard payload
  constructor
  · simp [run_query, hpre, h, hdrop]
  · simp [run_query, hpre, hdrop]

/-- C5 witness: the guard-path and plain-path results coincide on a concrete
one-character payload and decoder. -/
theorem run_query_guard_equiv_witness :
    run_query (fun l => some l.length) ⟨200, jsonPayloadGuard ++ [Char.ofNat 120]⟩
        = run_query (fun l => some l.length) ⟨200, [Char.ofNat 120]⟩
    ∧ run_query (fun l => some l.length) ⟨200, jsonPayloadGuard ++ [Char.ofNat 120]⟩
        = (match some 1 with
           | some result => Except.ok result
           | none => Except.error AdapterError.jsonDecodeError) :=
  run_query_guard_equiv (fun l => some l.length) [Char.ofNat 120] (by decide)

/-- C8: a non-200 response makes the query fail with the remote-query error
carrying the raw body text, and makes get_data produce an error rather than
rows; a 200 response never produces that error from the status check. -/
theorem run_query_status {α : Type} (jsonDecode : List Char → Option α)
    (tableDecode : List Char → Option QueryResultsTable)
    (cm : List (String × String)) (bounds : List (String × Filter))
    (sql : String) (response : HttpResponse) :
    (response.status_code ≠ 200 →
        run_query jsonDecode response = Except.error (.remoteQueryError response.text))
    ∧ (response.status_code ≠ 200 → buildSQL cm bounds = Except.ok sql →
        get_data cm bounds tableDecode response
          = Except.error (.remoteQueryError response.text))
    ∧ (response.status_code = 200 → ∀ body,
        run_query jsonDecode response ≠ Except.error (.remoteQueryError body)) := by
  refine ⟨fun hne => ?_, fun hne hsql => ?_, fun he body => ?_⟩
  · simp [run_query, hne]
  · simp [get_data, hsql, run_query, hne]
  · simp only [run_query, he, ne_eq, not_true_eq_false, if_false]
    cases jsonPayloadGuard.isPrefixOf response.text <;>
      simp <;> split <;> simp

/-- C8 witness: a concrete 500 response with body err fails with the
remote-query error carrying that body, both in run_query and in get_data,
and a concrete 200 response does not fail with a remote-query error. -/
theorem run_query_status_witness :
    (run_query (fun l => some l.length) ⟨500, ['e', 'r', 'r']⟩
        = Except.error (.remoteQueryError ['e', 'r', 'r']))
    ∧ (get_data [] [] (fun _ => some ⟨[], []⟩) ⟨500, ['e', 'r', 'r']⟩
        = Except.error (.remoteQueryError ['e', 'r', 'r']))
    ∧ run_query (fun l => some l.length) ⟨200, ['o', 'k']⟩
        ≠ Except.error (.remoteQueryError ['o', 'k']) := by
  have h := run_query_status (α := Nat) (fun l => some l.length)
    (fun _ => some ⟨[], []⟩) [] [] "SELECT *" ⟨500, ['e', 'r', 'r']⟩
  have h₂ := run_query_status (α := Nat) (fun l => some l.length)
    (fun _ => some ⟨[], []⟩) [] [] "SELECT *" ⟨200, ['o', 'k']⟩
  exact ⟨h.1 (by decide), h.2.1 (by decide) rfl, h₂.2.2 rfl ['o', 'k']⟩

/-- The keys of a dict, in order. -/
def keysOf (d : List (String × Value)) : List String := d.map Prod.fst

theorem alookup_dictInsert_self (d : List (String × Value)) (k : String) (v : Value) :
    alookup (dictInsert d k v) k = some v := by
  induction d with
  | nil => simp [dictInsert, alookup]
  | cons p rest ih =>
      obtain ⟨k₁, v₁⟩ := p
      by_cases hk : k₁ = k <;> simp [dictInsert, alookup, hk, ih]

theorem mem_keys_dictInsert (d : List (String × Value)) (k : String) (v : Value)
    (a : String) : a ∈ keysOf (dictInsert d k v) ↔ a ∈ keysOf d ∨ a = k := by
  induction d with
  | nil => simp [dictInsert, keysOf]
  | cons p rest ih =>
      obtain ⟨k₁, v₁⟩ := p
      by_cases hk : k₁ = k
      · subst hk
        simp [dictInsert, keysOf]
        tauto
      · simp [dictInsert, keysOf, hk] at ih ⊢
        tauto

theorem keysNodup_dictInsert (d : List (String × Value)) (k : String) (v : Value)
    (h : (keysOf d).Nodup) : (keysOf (dictInsert d k v)).Nodup := by
  induction d with
  | nil => simp [dictInsert, keysOf]
  | cons p rest ih =>
      obtain ⟨k₁, v₁⟩ := p
      simp only [keysOf, List.map_cons, List.nodup_cons] at h
      by_cases hk : k₁ = k
      · simpa [dictInsert, hk, keysOf, List.nodup_cons] using h
      · simp only [dictInsert, hk, if_false, keysOf, List.map_cons, List.nodup_cons]
        refine ⟨fun hmem => ?_, ih h.2⟩
        rcases (mem_keys_dictInsert rest k v k₁).mp hmem with hin | heq
        · exact h.1 hin
        · exact hk heq

theorem keysNodup_dictOf (pairs : List (String × Value)) :
    (keysOf (dictOf pairs)).Nodup := by
  suffices haux : ∀ (ps : List (String × Value)) (acc : List (String × Value)),
      (keysOf acc).Nodup →
      (keysOf (ps.foldl (fun d p => dictInsert d p.1 p.2) acc)).Nodup by
    exact haux pairs [] (by simp [keysOf])
  intro ps
  induction ps with
  | nil => intro acc h; simpa using h
  | cons p rest ih =>
      intro acc h
      exact ih (dictInsert acc p.1 p.2) (keysNodup_dictInsert acc p.1 p.2 h)

theorem alookup_of_mem_nodup (l : List (String × Value)) (k : String) (v : Value)
    (hnd : (keysOf l).Nodup) (hm : (k, v) ∈ l) : alookup l k = some v := by
  induction l with
  | nil => cases hm
  | cons p rest ih =>
      obtain ⟨k₁, v₁⟩ := p
      simp only [keysOf, List.map_cons, List.nodup_cons] at hnd
      rcases List.mem_cons.mp hm with heq | hin
      · cases heq
        simp [alookup]
      · have hk : k₁ ≠ k := by
          intro hkk
          subst hkk
          exact hnd.1 (by simpa [keysOf] using List.mem_map_of_mem Prod.fst hin)
        simp [alookup, hk, ih hnd.2 hin]

theorem get_data_rows_getElem (t : QueryResultsTable) (i : Nat)
    (h : i < (get_data_rows t).length) :
    (get_data_rows t).get ⟨i, h⟩
      = dictInsert
          (dictOf ((t.cols.map fun col => col.label).zip
            ((t.rows.get ⟨i, by simpa [get_data_rows, List.enum_length] using h⟩).c.map
              fun cell => cell.v)))
          "rowid" (Value.int i) := by
  simp [get_data_rows, List.get_eq_getElem, List.getElem_map, List.getElem_enum]

/-- C9: the i-th row yielded by get_data carries rowid equal to i, its
0-based position in the result set. -/
theorem get_data_rows_rowid (t : QueryResultsTable) (i : Nat)
    (h : i < (get_data_rows t).length) :
    alookup ((get_data_rows t).get ⟨i, h⟩) "rowid" = some (Value.int i) := by
  rw [get_data_rows_getElem t i h]
  exact alookup_dictInsert_self _ _ _

/-- C9 witness: on a concrete two-row result, the row at position 1 carries
rowid 1. -/
theorem get_data_rows_rowid_witness :
    alookup ((get_data_rows ⟨[⟨"A", "country"⟩],
        [⟨[⟨Value.str "BR"⟩]⟩, ⟨[⟨Value.str "US"⟩]⟩]⟩).get ⟨1, by decide⟩)
      "rowid" = some (Value.int 1) :=
  get_data_rows_rowid ⟨[⟨"A", "country"⟩],
    [⟨[⟨Value.str "BR"⟩]⟩, ⟨[⟨Value.str "US"⟩]⟩]⟩ 1 (by decide)

/-- C10: when the response columns contain a column labeled rowid, the
yielded row still maps rowid to the synthetic 0-based position, and the
remote cell value supplied for that column is not observable: every pair
keyed rowid in the row holds the position. -/
theorem get_data_rows_rowid_overwrite (t : QueryResultsTable) (i : Nat)
    (hcol : "rowid" ∈ t.cols.map fun col => col.label)
    (h : i < (get_data_rows t).length) :
    alookup ((get_data_rows t).get ⟨i, h⟩) "rowid" = some (Value.int i)
    ∧ ∀ v : Value, ("rowid", v) ∈ (get_data_rows t).get ⟨i, h⟩ → v = Value.int i := by
  rw [get_data_rows_getElem t i h]
  refine ⟨alookup_dictInsert_self _ _ _, fun v hv => ?_⟩
  have hnd : (keysOf (dictInsert
      (dictOf ((t.cols.map fun col => col.label).zip
        ((t.rows.get ⟨i, by simpa [get_data_rows, List.enum_length] using h⟩).c.map
          fun cell => cell.v)))
      "rowid" (Value.int i))).Nodup :=
    keysNodup_dictInsert _ _ _ (keysNodup_dictOf _)
  have hl := alookup_of_mem_nodup _ "rowid" v hnd hv
  rw [alookup_dictInsert_self] at hl
  exact (Option.some.inj hl).symm

/-- C10 witness: a concrete response with a column labeled rowid whose cell
holds 99 still yields rowid 0 for the first row, and 99 is not reachable
under the rowid key. -/
theorem get_data_rows_rowid_overwrite_witness :
    ("rowid" ∈ ([⟨"A", "rowid"⟩] : List QueryResultsColumn).map (fun col => col.label))
    ∧ alookup ((get_data_rows ⟨[⟨"A", "rowid"⟩], [⟨[⟨Value.int 99⟩]⟩]⟩).get ⟨0, by decide⟩)
        "rowid" = some (Value.int 0)
    ∧ ∀ v : Value, ("rowid", v) ∈ (get_data_rows ⟨[⟨"A", "rowid"⟩],
        [⟨[⟨Value.int 99⟩]⟩]⟩).get ⟨0, by decide⟩ → v = Value.int 0 := by
  have h := get_data_rows_rowid_overwrite ⟨[⟨"A", "rowid"⟩], [⟨[⟨Value.int 99⟩]⟩]⟩ 0
    (by decide) (by decide)
  exact ⟨by decide, h.1, h.2⟩

/-- C6: can_sort returns the subsequence of the sort keys whose column is
known and declares capability ANY, or ASCENDING with a non-reversed key, or
DESCENDING with a reversed key; with every named capability NONE the result
is empty, and with every named capability ANY the result is the full input,
regardless of direction. -/
theorem can_sort_spec (columns : List (String × FieldDef)) (sortkeys : List SortKey) :
    List.Sublist (can_sort columns sortkeys) sortkeys
    ∧ (∀ key ∈ sortkeys,
        (key ∈ can_sort columns sortkeys ↔
          ∃ f, alookup columns key.attname = some f ∧
            (f.order = Order.any
              ∨ (f.order = Order.ascending ∧ key.is_reversed = false)
              ∨ (f.order = Order.descending ∧ key.is_reversed = true))))
    ∧ ((∀ key ∈ sortkeys,
          (alookup columns key.attname).map FieldDef.order = some Order.none_) →
        can_sort columns sortkeys = [])
    ∧ ((∀ key ∈ sortkeys,
          (alookup columns key.attname).map FieldDef.order = some Order.any) →
        can_sort columns sortkeys = sortkeys) := by
  refine ⟨List.filter_sublist sortkeys, fun key hk => ?_, fun hall => ?_, fun hall => ?_⟩
  · rw [can_sort, List.mem_filter]
    cases haf : alookup columns key.attname with
    | none => simp [haf, hk]
    | some f =>
        simp only [haf, hk, true_and]
        constructor
        · intro hd
          exact ⟨f, rfl, by simpa using hd⟩
        · rintro ⟨f', hf', hd⟩
          cases Option.some.inj hf'
          simpa using hd
  · rw [can_sort, List.filter_eq_nil_iff]
    intro key hk
    have := hall key hk
    cases haf : alookup columns key.attname with
    | none => simp [haf]
    | some f =>
        rw [haf] at this
        have ho : f.order = Order.none_ := by simpa using this
        simp [haf, ho]
  · rw [can_sort, List.filter_eq_self]
    intro key hk
    have := hall key hk
    cases haf : alookup columns key.attname with
    | none => simp [haf] at this
    | some f =>
        rw [haf] at this
        have ho : f.order = Order.any := by simpa using this
        simp [haf, ho]

/-- C6 witness: with capability NONE every requested key is rejected, and
with capability ANY both directions are kept. -/
theorem can_sort_spec_witness :
    can_sort [("a", ⟨Order.none_⟩)] [⟨"a", false⟩, ⟨"a", true⟩] = []
    ∧ can_sort [("b", ⟨Order.any⟩)] [⟨"b", false⟩, ⟨"b", true⟩]
        = [⟨"b", false⟩, ⟨"b", true⟩] :=
  ⟨(can_sort_spec [("a", ⟨Order.none_⟩)] [⟨"a", false⟩, ⟨"a", true⟩]).2.2.1 (by decide),
   (can_sort_spec [("b", ⟨Order.any⟩)] [⟨"b", false⟩, ⟨"b", true⟩]).2.2.2 (by decide)⟩




theorem mem_boundsGet_boundsAdd (m : List (String × List (Operator × Value)))
    (f' : String) (p : Operator × Value) (f : String) (q : Operator × Value) :
    q ∈ boundsGet (boundsAdd m f' p) f ↔ (f = f' ∧ q = p) ∨ q ∈ boundsGet m f := by
  induction m with
  | nil =>
      by_cases hf : f' = f <;>
        simp [boundsAdd, boundsGet, alookup, hf, eq_comm]
  | cons e rest ih =>
      obtain ⟨f₁, s₁⟩ := e
      by_cases h₁ : f₁ = f'
      · subst h₁
        by_cases h₂ : f₁ = f
        · subst h₂
          by_cases hp : p ∈ s₁
          · simp [boundsAdd, boundsGet, hp]
            exact fun hqp => hqp ▸ hp
          · simp [boundsAdd, boundsGet, hp]
            exact Or.comm
        · simp [boundsAdd, boundsGet, h₂]
          exact fun hf _ => absurd hf.symm h₂
      · by_cases h₂ : f₁ = f
        · subst h₂
          simp [boundsAdd, boundsGet, h₁]
        · simp [boundsAdd, boundsGet, h₁, h₂, ih]

theorem mem_boundsGet_foldl (qs : List Qual)
    (acc : List (String × List (Operator × Value))) (f : String)
    (op : Operator) (v : Value) :
    (op, v) ∈ boundsGet (qs.foldl
        (fun all_bounds qual =>
          match operator_map qual.operator with
          | some o => boundsAdd all_bounds qual.field_name (o, qual.value)
          | none => all_bounds) acc) f
      ↔ (op, v) ∈ boundsGet acc f
        ∨ ∃ qual ∈ qs, qual.field_name = f
            ∧ operator_map qual.operator = some op ∧ qual.value = v := by
  induction qs generalizing acc with
  | nil => simp
  | cons q qs ih =>
      rw [List.foldl_cons, ih]
      cases hop : operator_map q.operator with
      | none =>
          simp only [hop, List.mem_cons]
          constructor
          · rintro (hacc | ⟨qual, hq, hrest⟩)
            · exact Or.inl hacc
            · exact Or.inr ⟨qual, Or.inr hq, hrest⟩
          · rintro (hacc | ⟨qual, hq | hq, hrest⟩)
            · exact Or.inl hacc
            · subst hq
              rw [hop] at hrest
              exact absurd hrest.2.1 (by simp)
            · exact Or.inr ⟨qual, hq, hrest⟩
      | some o =>
          simp only [hop, List.mem_cons, mem_boundsGet_boundsAdd]
          constructor
          · rintro ((⟨hfeq, hpeq⟩ | hacc) | ⟨qual, hq, hrest⟩)
            · obtain ⟨ho, hv⟩ := Prod.mk.inj hpeq
              exact Or.inr ⟨q, Or.inl rfl, hfeq.symm, by rw [hop, ho], hv.symm⟩
            · exact Or.inl hacc
            · exact Or.inr ⟨qual, Or.inr hq, hrest⟩
          · rintro (hacc | ⟨qual, hq | hq, hf, hoq, hv⟩)
            · exact Or.inl (Or.inr hacc)
            · subst hq
              rw [hop] at hoq
              cases Option.some.inj hoq
              exact Or.inl (Or.inl ⟨hf.symm, by rw [hv]⟩)
            · exact Or.inr ⟨qual, hq, hf, hoq, hv⟩

theorem get_all_bounds_spec (quals : List Qual) (f : String) (op : Operator)
    (v : Value) :
    ((op, v) ∈ boundsGet (get_all_bounds quals) f ↔
      ∃ qual ∈ quals, qual.field_name = f
        ∧ operator_map qual.operator = some op ∧ qual.value = v)
    ∧ boundsGet (get_all_bounds [⟨"col", "like", Value.int 7⟩]) "col" = [] := by
  constructor
  · rw [get_all_bounds, mem_boundsGet_foldl]
    simp [boundsGet]
  · rfl

/-- C3: when the locator carries a fragment gid=N and a query-string gid=M,
the fragment value N is the gid the function resolves, and when no sheet
parameter is present the derived URL carries gid=N in its parameters. -/
theorem get_url_fragment_gid (parts : UrlParts) (N M : Int) (ms : String)
    (g₀ : Int) (H : Int)
    (hfrag : str_startsWith parts.fragment "gid=" = true)
    (hfragN : str_toInt (str_drop parts.fragment 4) = some N)
    (hqs : lastQS parts.query "gid" = some ms)
    (hM : str_toInt ms = some M)
    (hsheet : lastQS parts.query "sheet" = none)
    (hheads : resolve_headers parts 0 = some H) :
    resolve_gid parts g₀ = some N
    ∧ get_url parts 0 0 none
        = some (urlunparse parts.scheme parts.netloc (api_path parts.path)
            (urlencode ((if H > 0 then [("headers", toString H)] else [])
              ++ [("gid", toString N)]))) := by
  have hgid : resolve_gid parts g₀ = some N := by
    simp [resolve_gid, hqs, hM, hfrag, hfragN]
  have hgid0 : resolve_gid parts 0 = some N := by
    simp [resolve_gid, hqs, hM, hfrag, hfragN]
  refine ⟨hgid, ?_⟩
  simp [get_url, hheads, resolve_sheet, hsheet, hgid0]

/-- C3 witness: a concrete locator with fragment gid=7 and query-string
gid=42 resolves the gid 7 and derives a URL whose parameter is gid=7. -/
theorem get_url_fragment_gid_witness :
    resolve_gid ⟨"https", "docs.google.com", "/spreadsheets/d/X/edit",
        [("gid", "42")], "gid=7"⟩ 0 = some 7
    ∧ get_url ⟨"https", "docs.google.com", "/spreadsheets/d/X/edit",
        [("gid", "42")], "gid=7"⟩ 0 0 none
      = some (urlunparse "https" "docs.google.com"
          (api_path "/spreadsheets/d/X/edit")
          (urlencode ((if (0 : Int) > 0 then [("headers", toString (0 : Int))] else [])
            ++ [("gid", toString (7 : Int))]))) :=
  get_url_fragment_gid ⟨"https", "docs.google.com", "/spreadsheets/d/X/edit",
    [("gid", "42")], "gid=7"⟩ 7 42 "42" 0 0 (by decide) (by decide) (by decide)
    (by decide) (by decide) (by decide)

/-- C4: the derived path strips a trailing /edit when present, keeps the
path otherwise, and appends the gviz/tq service segment once; every URL
get_url derives uses exactly this path. -/
theorem get_url_edit_suffix (parts : UrlParts) (headers gid : Int)
    (sheet : Option String) :
    (str_endsWith parts.path "/edit" = true →
        api_path parts.path = rstrip_slash (str_dropRight parts.path 5) ++ "/gviz/tq")
    ∧ (str_endsWith parts.path "/edit" = false →
        api_path parts.path = rstrip_slash parts.path ++ "/gviz/tq")
    ∧ (∀ r, get_url parts headers gid sheet = some r →
        ∃ q, r = urlunparse parts.scheme parts.netloc (api_path parts.path) q) := by
  refine ⟨fun h => by simp [api_path, h], fun h => by simp [api_path, h], fun r hr => ?_⟩
  rw [get_url] at hr
  cases hh : resolve_headers parts headers with
  | none => rw [hh] at hr; cases hr
  | some hv =>
      rw [hh] at hr
      cases hg : resolve_gid parts gid with
      | none => rw [hg] at hr; cases hr
      | some gv =>
          rw [hg] at hr
          simp only [Option.bind_eq_bind, Option.some_bind, Option.some.injEq] at hr
          exact ⟨_, hr.symm⟩

/-- C4 witness: a concrete locator path ending in /edit derives the path
with the suffix removed and the service segment appended, and the full URL
uses that path. -/
theorem get_url_edit_suffix_witness :
    api_path "/spreadsheets/d/abc/edit"
        = rstrip_slash (str_dropRight "/spreadsheets/d/abc/edit" 5) ++ "/gviz/tq"
    ∧ (∃ q, "https://docs.google.com/spreadsheets/d/abc/gviz/tq?gid=0"
        = urlunparse "https" "docs.google.com" (api_path "/spreadsheets/d/abc/edit") q) :=
  ⟨(get_url_edit_suffix ⟨"https", "docs.google.com", "/spreadsheets/d/abc/edit",
      [], ""⟩ 0 0 none).1 (by decide),
   (get_url_edit_suffix ⟨"https", "docs.google.com", "/spreadsheets/d/abc/edit",
      [], ""⟩ 0 0 none).2.2
      "https://docs.google.com/spreadsheets/d/abc/gviz/tq?gid=0" (by decide)⟩

end Shillelagh
